import Mathlib

set_option autoImplicit false

namespace BetTracker

/-!
Shallow embedding of the betting-ledger core of the repository:
`src/shared/schema.ts` (record shapes) and `src/server/storage.ts`
(`MemStorage`, plus the serialization performed by `FileStorage`).

Conventions:
* `real` money columns are modelled as rationals (`ℚ`);
* timestamps are natural numbers (epoch milliseconds); every `new Date()`
  call of a mutating operation is modelled by an explicit `now` parameter;
* a JS `Map` keyed by numeric ids is an insertion-ordered association list;
* TS `throw` is modelled by returning the unchanged state paired with an
  `Except.error`; the thrown messages of `storage.ts` are the `StoreErr`
  constructors.
The `exports` collection is never touched by the properties below and is
omitted from the state.
-/

/-- JS `Map` with numeric keys: an insertion-ordered association list. -/
abbrev JsMap (α : Type) := List (Nat × α)

/-- `Map.prototype.get`. -/
def mapGet {α : Type} (m : JsMap α) (k : Nat) : Option α :=
  match m with
  | [] => none
  | (k0, v) :: rest => if k0 = k then some v else mapGet rest k

/-- `Map.prototype.set`: replaces the value at an existing key in place
(keeping insertion order), otherwise appends a new entry. -/
def mapSet {α : Type} (m : JsMap α) (k : Nat) (v : α) : JsMap α :=
  match m with
  | [] => [(k, v)]
  | (k0, v0) :: rest => if k0 = k then (k, v) :: rest else (k0, v0) :: mapSet rest k v

/-- JS `x || d` for an optional string field: both `undefined` and the empty
string are falsy, so they fall back to the default. -/
def strOrDefault (x : Option String) (d : String) : String :=
  match x with
  | none => d
  | some s => if s = "" then d else s

/-- JS `x || null` for an optional string field (`createBet`'s notes). -/
def strOrNull (x : Option String) : Option String :=
  match x with
  | none => none
  | some s => if s = "" then none else some s

/-- JS `update.notes || bet.notes` in `updateBetResult`: an absent or empty
update keeps the old notes. -/
def notesOr (u : Option String) (old : Option String) : Option String :=
  match u with
  | none => old
  | some s => if s = "" then old else some s

/-- Numeric value of a list of decimal digit characters, most significant
first. -/
def digitsVal (cs : List Char) : Nat :=
  cs.foldl (fun a c => a * 10 + (c.toNat - 48)) 0

/-- The leading run of decimal digits, or `none` when there is none
(JS `parseInt` returning `NaN`). -/
def leadingDigits (cs : List Char) : Option Nat :=
  let ds := cs.takeWhile Char.isDigit
  if ds.isEmpty then none else some (digitsVal ds)

/-- JS `parseInt(s)` in base 10 on a whitespace-free string: one optional
leading sign, then at least one digit; trailing non-digits are ignored;
`none` models `NaN`. -/
def parseIntChars (cs : List Char) : Option Int :=
  match cs with
  | [] => none
  | c :: rest =>
    if c = '+' then (leadingDigits rest).map (fun n => (n : Int))
    else if c = '-' then (leadingDigits rest).map (fun n => -(n : Int))
    else (leadingDigits (c :: rest)).map (fun n => (n : Int))

/-! ### Record shapes (`src/shared/schema.ts`) -/

/-- A row of the `games` table. -/
structure Game where
  id : Nat
  homeTeam : String
  awayTeam : String
  gameTime : Nat
  homeOdds : String
  awayOdds : String
  overUnderLine : String
  overUnderOdds : String
  source : String
  uploadDate : Nat
  deriving Repr, DecidableEq

/-- `InsertGame`: `insertGameSchema` omits `id` and `uploadDate`; `source`
has a schema default, hence is optional. -/
structure InsertGame where
  homeTeam : String
  awayTeam : String
  gameTime : Nat
  homeOdds : String
  awayOdds : String
  overUnderLine : String
  overUnderOdds : String
  source : Option String
  deriving Repr, DecidableEq

/-- A row of the `recommendations` table. -/
structure Recommendation where
  id : Nat
  game : String
  betType : String
  odds : String
  confidence : Int
  prediction : String
  gameSource : String
  betTypeSource : String
  oddsSource : String
  confidenceSource : String
  predictionSource : String
  generatedAt : Nat
  deriving Repr, DecidableEq

/-- `InsertRecommendation`: omits `id` and `generatedAt`; the five
provenance fields have schema defaults, hence are optional. -/
structure InsertRecommendation where
  game : String
  betType : String
  odds : String
  confidence : Int
  prediction : String
  gameSource : Option String
  betTypeSource : Option String
  oddsSource : Option String
  confidenceSource : Option String
  predictionSource : Option String
  deriving Repr, DecidableEq

/-- The single `bankroll_settings` record. -/
structure BankrollSettings where
  id : Nat
  initialAmount : ℚ
  currentAmount : ℚ
  createdAt : Nat
  updatedAt : Nat
  deriving Repr, DecidableEq

/-- `InsertBankrollSettings`: omits `id`, `createdAt`, `updatedAt`. -/
structure InsertBankrollSettings where
  initialAmount : ℚ
  currentAmount : ℚ
  deriving Repr, DecidableEq

/-- A row of the `bet_history` table. -/
structure BetHistory where
  id : Nat
  recommendationId : Int
  date : String
  game : String
  betType : String
  odds : String
  confidence : Int
  betAmount : ℚ
  predictedResult : String
  actualResult : String
  profitLoss : ℚ
  bankrollAfter : ℚ
  notes : Option String
  createdAt : Nat
  updatedAt : Nat
  deriving Repr, DecidableEq

/-- `InsertBetHistory`: omits `id`, `createdAt`, `updatedAt`;
`actualResult` and `profitLoss` have schema defaults, `notes` is nullable. -/
structure InsertBetHistory where
  recommendationId : Int
  date : String
  game : String
  betType : String
  odds : String
  confidence : Int
  betAmount : ℚ
  predictedResult : String
  actualResult : Option String
  profitLoss : Option ℚ
  bankrollAfter : ℚ
  notes : Option String
  deriving Repr, DecidableEq

/-- `updateBetResultSchema`: id, the declared result, optional notes. -/
structure UpdateBetResult where
  id : Nat
  actualResult : String
  notes : Option String
  deriving Repr, DecidableEq

/-- The errors thrown by `MemStorage` (`throw new Error(...)`). -/
inductive StoreErr where
  | notFound (id : Nat)
  | notInitialized
  deriving Repr, DecidableEq

/-- The in-memory state of `MemStorage` (the `exports` collection, unused by
the properties below, is omitted). -/
structure MemState where
  gamesData : JsMap Game
  recommendationsData : JsMap Recommendation
  bankrollSettingsData : Option BankrollSettings
  betHistoryData : JsMap BetHistory
  gameId : Nat
  recommendationId : Nat
  betHistoryId : Nat
  deriving Repr, DecidableEq

/-- The fresh `MemStorage` of the constructor: empty maps, counters at 1. -/
def initialState : MemState :=
  { gamesData := []
    recommendationsData := []
    bankrollSettingsData := none
    betHistoryData := []
    gameId := 1
    recommendationId := 1
    betHistoryId := 1 }

/-! ### `MemStorage` operations (`src/server/storage.ts`) -/

/-- The `Game` record built by `MemStorage.createGame`: the input spread
plus the assigned id, the defaulted `source` and the `uploadDate` stamp. -/
def mkGameRec (id : Nat) (now : Nat) (game : InsertGame) : Game :=
  { id := id
    homeTeam := game.homeTeam
    awayTeam := game.awayTeam
    gameTime := game.gameTime
    homeOdds := game.homeOdds
    awayOdds := game.awayOdds
    overUnderLine := game.overUnderLine
    overUnderOdds := game.overUnderOdds
    source := strOrDefault game.source "Manual Upload"
    uploadDate := now }

/-- `MemStorage.createGame`: assigns the next id, defaults `source` to
`"Manual Upload"` when falsy, stamps `uploadDate`. -/
def createGame (st : MemState) (now : Nat) (game : InsertGame) : MemState × Game :=
  let id := st.gameId
  let newGame : Game := mkGameRec id now game
  ({ st with gamesData := mapSet st.gamesData id newGame, gameId := st.gameId + 1 },
   newGame)

/-- `MemStorage.clearGames`: clears the map and resets the id counter. -/
def clearGames (st : MemState) : MemState :=
  { st with gamesData := [], gameId := 1 }

/-- `MemStorage.createGames`: creates each input in order. -/
def createGames (st : MemState) (now : Nat) (gamesArray : List InsertGame) :
    MemState × List Game :=
  match gamesArray with
  | [] => (st, [])
  | g :: gs =>
    let p := createGame st now g
    let q := createGames p.1 now gs
    (q.1, p.2 :: q.2)

/-- The games replacement flow (`POST /api/odds/refresh` in
`src/server/routes.ts`): `clearGames` followed by `createGames`. -/
def replaceAllGames (st : MemState) (now : Nat) (gamesArray : List InsertGame) :
    MemState × List Game :=
  createGames (clearGames st) now gamesArray

/-- The `Recommendation` record built by `MemStorage.createRecommendation`.
Note the spread order of the source: the input's fields are copied first
and then the five provenance fields are assigned fixed constants, so
caller-supplied provenance is overwritten unconditionally. -/
def mkRecommendationRec (id : Nat) (now : Nat) (rec : InsertRecommendation) : Recommendation :=
  { id := id
    game := rec.game
    betType := rec.betType
    odds := rec.odds
    confidence := rec.confidence
    prediction := rec.prediction
    gameSource := "Manual Input"
    betTypeSource := "LLM"
    oddsSource := "LLM"
    confidenceSource := "LLM"
    predictionSource := "LLM"
    generatedAt := now }

/-- `MemStorage.createRecommendation`. -/
def createRecommendation (st : MemState) (now : Nat) (rec : InsertRecommendation) :
    MemState × Recommendation :=
  let id := st.recommendationId
  let newRecommendation : Recommendation := mkRecommendationRec id now rec
  ({ st with recommendationsData := mapSet st.recommendationsData id newRecommendation,
             recommendationId := st.recommendationId + 1 },
   newRecommendation)

/-- A sequence of consecutive single `createRecommendation` calls (no
intervening clear or replace-all). -/
def createRecommendationSeq (st : MemState) (now : Nat) (recs : List InsertRecommendation) :
    MemState × List Recommendation :=
  match recs with
  | [] => (st, [])
  | r :: rs =>
    let p := createRecommendation st now r
    let q := createRecommendationSeq p.1 now rs
    (q.1, p.2 :: q.2)

/-- `MemStorage.setBankrollSettings`: unconditionally overwrites the single
record with id 1 and fresh timestamps. -/
def setBankrollSettings (st : MemState) (now : Nat) (settings : InsertBankrollSettings) :
    MemState × BankrollSettings :=
  let bk : BankrollSettings :=
    { id := 1
      initialAmount := settings.initialAmount
      currentAmount := settings.currentAmount
      createdAt := now
      updatedAt := now }
  ({ st with bankrollSettingsData := some bk }, bk)

/-- `MemStorage.updateBankrollAmount`: fails when no bankroll exists,
otherwise replaces `currentAmount` and `updatedAt`. -/
def updateBankrollAmount (st : MemState) (now : Nat) (newAmount : ℚ) :
    MemState × Except StoreErr BankrollSettings :=
  match st.bankrollSettingsData with
  | none => (st, .error .notInitialized)
  | some bk =>
    let bk' : BankrollSettings := { bk with currentAmount := newAmount, updatedAt := now }
    ({ st with bankrollSettingsData := some bk' }, .ok bk')

/-- The `BetHistory` record built by `MemStorage.createBet`: the input
spread plus the assigned id, both timestamp stamps and the JS `||`
defaults for `notes`, `actualResult` and `profitLoss`. -/
def mkBetRec (id : Nat) (now : Nat) (bet : InsertBetHistory) : BetHistory :=
  { id := id
    recommendationId := bet.recommendationId
    date := bet.date
    game := bet.game
    betType := bet.betType
    odds := bet.odds
    confidence := bet.confidence
    betAmount := bet.betAmount
    predictedResult := bet.predictedResult
    actualResult := strOrDefault bet.actualResult "pending"
    profitLoss := (bet.profitLoss).getD 0
    bankrollAfter := bet.bankrollAfter
    notes := strOrNull bet.notes
    createdAt := now
    updatedAt := now }

/-- `MemStorage.createBet`: assigns the next id, stamps both timestamps,
defaults `notes`, `actualResult` and `profitLoss` via JS `||`. -/
def createBet (st : MemState) (now : Nat) (bet : InsertBetHistory) : MemState × BetHistory :=
  let id := st.betHistoryId
  let newBet : BetHistory := mkBetRec id now bet
  ({ st with betHistoryData := mapSet st.betHistoryData id newBet,
             betHistoryId := st.betHistoryId + 1 },
   newBet)

/-- A sequence of consecutive single `createBet` calls. -/
def createBetSeq (st : MemState) (now : Nat) (bets : List InsertBetHistory) :
    MemState × List BetHistory :=
  match bets with
  | [] => (st, [])
  | b :: bs =>
    let p := createBet st now b
    let q := createBetSeq p.1 now bs
    (q.1, p.2 :: q.2)

/-- The profit/loss computation of `MemStorage.updateBetResult`
(storage.ts lines 244-259), on the odds string's characters.  A win with
odds starting in `'+'` (`odds.startsWith("+")`, i.e. the head character is
`'+'`) parses the digits after the sign (`parseInt(odds.substring(1))`);
any other odds string on a win is parsed whole and its absolute value
taken (`Math.abs(parseInt(odds))`).  The JS `NaN` outcome of an
unparseable odds string is modelled as the value 0; every property below
either pins a well-formed odds string or discards this value. -/
def profitLossChars (odds : List Char) (betAmount : ℚ) (actualResult : String) : ℚ :=
  if actualResult = "win" then
    if odds.head? = some '+' then
      let oddsValue := (parseIntChars odds.tail).getD 0
      betAmount * ((oddsValue : ℚ) / 100)
    else
      let oddsValue := ((parseIntChars odds).getD 0).natAbs
      betAmount * (100 / (oddsValue : ℚ))
  else if actualResult = "loss" then
    - betAmount
  else
    0

/-- Settlement arithmetic on the odds string itself. -/
def computeProfitLoss (odds : String) (betAmount : ℚ) (actualResult : String) : ℚ :=
  profitLossChars odds.data betAmount actualResult

/-- `MemStorage.updateBetResult`: looks up the bet (else `NotFound`),
computes the profit/loss, requires the bankroll (else `NotInitialized`),
applies the delta to the bankroll and rewrites the bet.  Both throw sites
precede every mutation, so the error cases return the state unchanged. -/
def updateBetResult (st : MemState) (now : Nat) (u : UpdateBetResult) :
    MemState × Except StoreErr BetHistory :=
  match mapGet st.betHistoryData u.id with
  | none => (st, .error (.notFound u.id))
  | some bet =>
    let profitLoss := computeProfitLoss bet.odds bet.betAmount u.actualResult
    match st.bankrollSettingsData with
    | none => (st, .error .notInitialized)
    | some bankrollSettings =>
      let newBankrollAmount := bankrollSettings.currentAmount + profitLoss
      let st1 := (updateBankrollAmount st now newBankrollAmount).1
      let updatedBet : BetHistory :=
        { bet with
          actualResult := u.actualResult
          profitLoss := profitLoss
          bankrollAfter := newBankrollAmount
          notes := notesOr u.notes bet.notes
          updatedAt := now }
      ({ st1 with betHistoryData := mapSet st1.betHistoryData u.id updatedBet },
       .ok updatedBet)

/-! ### The ledger facade (route layer) -/

/-- The error taxonomy of the spec's section 7 for the facade. -/
inductive LedgerErr where
  | validationError
  deriving Repr, DecidableEq

/-- Modelled from the spec: the HTTP route handlers for the bets and
bankroll endpoints are not part of the available source (only their
client-side callers are), so the validating facade around
`setBankrollSettings` is taken from the spec's sections 4.1 and 7:
`setBankroll(initial, current)` fails with a `ValidationError` when a
supplied amount is negative, and otherwise overwrites the single record
through the store. -/
def setBankroll (st : MemState) (now : Nat) (initial current : ℚ) :
    MemState × Except LedgerErr BankrollSettings :=
  if initial < 0 ∨ current < 0 then
    (st, .error .validationError)
  else
    let p := setBankrollSettings st now { initialAmount := initial, currentAmount := current }
    (p.1, .ok p.2)

/-! ### Serialization (`FileStorage`, storage.ts lines 294-574)

`FileStorage` persists each collection by writing the array of records
(`JSON.stringify(Array.from(map.values()))`) and reloads it by parsing the
file and re-keying the map, converting each serialized timestamp back into
a time value with `new Date(...)`.  Every field other than the timestamps
passes through the file verbatim; the timestamps travel as text.  The
round-trippable textual form of a timestamp is modelled as its decimal
numeral. -/

/-- Digit character of a value below 10. -/
def digitChar (d : Nat) : Char := Char.ofNat (48 + d)

/-- The round-trippable textual form a timestamp takes inside a data file. -/
def encodeTime (t : Nat) : String :=
  String.mk (((Nat.digits 10 t).reverse).map digitChar)

/-- The `new Date(string)` reconstruction applied on reload. -/
def decodeTime (s : String) : Nat := digitsVal s.data

/-- A `Game` as it sits in `games.json`: timestamps in textual form. -/
structure SerGame where
  id : Nat
  homeTeam : String
  awayTeam : String
  gameTime : String
  homeOdds : String
  awayOdds : String
  overUnderLine : String
  overUnderOdds : String
  source : String
  uploadDate : String
  deriving Repr, DecidableEq

/-- A `BetHistory` as it sits in `bets.json`. -/
structure SerBet where
  id : Nat
  recommendationId : Int
  date : String
  game : String
  betType : String
  odds : String
  confidence : Int
  betAmount : ℚ
  predictedResult : String
  actualResult : String
  profitLoss : ℚ
  bankrollAfter : ℚ
  notes : Option String
  createdAt : String
  updatedAt : String
  deriving Repr, DecidableEq

/-- The `BankrollSettings` record as it sits in `bankroll.json`. -/
structure SerBankroll where
  id : Nat
  initialAmount : ℚ
  currentAmount : ℚ
  createdAt : String
  updatedAt : String
  deriving Repr, DecidableEq

/-- Serialization of one game record. -/
def serializeGame (g : Game) : SerGame :=
  { id := g.id
    homeTeam := g.homeTeam
    awayTeam := g.awayTeam
    gameTime := encodeTime g.gameTime
    homeOdds := g.homeOdds
    awayOdds := g.awayOdds
    overUnderLine := g.overUnderLine
    overUnderOdds := g.overUnderOdds
    source := g.source
    uploadDate := encodeTime g.uploadDate }

/-- The per-record conversion of `FileStorage.loadGames`:
`game.uploadDate = new Date(game.uploadDate)` and, guarded by
`if (game.gameTime)`, `game.gameTime = new Date(game.gameTime)`.  The guard
leaves a falsy (empty) string unconverted; the encoder produces the empty
string only for time 0, which `decodeTime` also maps to 0, so the guard is
immaterial here. -/
def deserializeGame (s : SerGame) : Game :=
  { id := s.id
    homeTeam := s.homeTeam
    awayTeam := s.awayTeam
    gameTime := decodeTime s.gameTime
    homeOdds := s.homeOdds
    awayOdds := s.awayOdds
    overUnderLine := s.overUnderLine
    overUnderOdds := s.overUnderOdds
    source := s.source
    uploadDate := decodeTime s.uploadDate }

/-- Serialization of one bet record. -/
def serializeBet (b : BetHistory) : SerBet :=
  { id := b.id
    recommendationId := b.recommendationId
    date := b.date
    game := b.game
    betType := b.betType
    odds := b.odds
    confidence := b.confidence
    betAmount := b.betAmount
    predictedResult := b.predictedResult
    actualResult := b.actualResult
    profitLoss := b.profitLoss
    bankrollAfter := b.bankrollAfter
    notes := b.notes
    createdAt := encodeTime b.createdAt
    updatedAt := encodeTime b.updatedAt }

/-- The per-record conversion of `FileStorage.loadBets`:
`bet.createdAt = new Date(bet.createdAt)`, `bet.updatedAt = new Date(bet.updatedAt)`. -/
def deserializeBet (s : SerBet) : BetHistory :=
  { id := s.id
    recommendationId := s.recommendationId
    date := s.date
    game := s.game
    betType := s.betType
    odds := s.odds
    confidence := s.confidence
    betAmount := s.betAmount
    predictedResult := s.predictedResult
    actualResult := s.actualResult
    profitLoss := s.profitLoss
    bankrollAfter := s.bankrollAfter
    notes := s.notes
    createdAt := decodeTime s.createdAt
    updatedAt := decodeTime s.updatedAt }

/-- `FileStorage.saveGames`: the file holds `Array.from(this.gamesData.values())`. -/
def saveGames (m : JsMap Game) : List SerGame :=
  m.map (fun p => serializeGame p.2)

/-- `FileStorage.loadGames`: `data.forEach(game => { ...convert dates...;
this.gamesData.set(game.id, game) })` on a fresh map. -/
def loadGames (l : List SerGame) : JsMap Game :=
  l.foldl (fun m s => mapSet m (deserializeGame s).id (deserializeGame s)) []

/-- `FileStorage.saveBets`. -/
def saveBets (m : JsMap BetHistory) : List SerBet :=
  m.map (fun p => serializeBet p.2)

/-- `FileStorage.loadBets`. -/
def loadBets (l : List SerBet) : JsMap BetHistory :=
  l.foldl (fun m s => mapSet m (deserializeBet s).id (deserializeBet s)) []

/-- `FileStorage.saveBankroll`: written only when a record exists. -/
def saveBankroll (bk : Option BankrollSettings) : Option SerBankroll :=
  bk.map (fun b =>
    { id := b.id
      initialAmount := b.initialAmount
      currentAmount := b.currentAmount
      createdAt := encodeTime b.createdAt
      updatedAt := encodeTime b.updatedAt })

/-- `FileStorage.loadBankroll`: `data.createdAt = new Date(data.createdAt)`,
`data.updatedAt = new Date(data.updatedAt)` when the file is present. -/
def loadBankroll (s : Option SerBankroll) : Option BankrollSettings :=
  s.map (fun b =>
    { id := b.id
      initialAmount := b.initialAmount
      currentAmount := b.currentAmount
      createdAt := decodeTime b.createdAt
      updatedAt := decodeTime b.updatedAt })

/-- A `JsMap` as JS maintains it: distinct keys, each record keyed by its
own id. -/
abbrev isMapLike {α : Type} (getId : α → Nat) (m : JsMap α) : Prop :=
  (m.map Prod.fst).Nodup ∧ ∀ p ∈ m, getId p.2 = p.1

/-! ### Concrete sample data (used by the witnesses below) -/

/-- A pending bet of stake 50 at odds +120. -/
def betPlus120 : BetHistory :=
  { id := 1, recommendationId := 1, date := "2025-04-01", game := "A vs. B",
    betType := "Moneyline", odds := "+120", confidence := 70, betAmount := 50,
    predictedResult := "A wins", actualResult := "pending", profitLoss := 0,
    bankrollAfter := 0, notes := none, createdAt := 10, updatedAt := 10 }

/-- A pending bet of stake 110 at odds -110. -/
def betMinus110 : BetHistory :=
  { id := 2, recommendationId := 1, date := "2025-04-01", game := "A vs. B",
    betType := "Moneyline", odds := "-110", confidence := 60, betAmount := 110,
    predictedResult := "B wins", actualResult := "pending", profitLoss := 0,
    bankrollAfter := 0, notes := none, createdAt := 11, updatedAt := 11 }

/-- A pending bet of stake 75. -/
def betStake75 : BetHistory :=
  { id := 3, recommendationId := 2, date := "2025-04-02", game := "C vs. D",
    betType := "Run Line", odds := "-150", confidence := 55, betAmount := 75,
    predictedResult := "C wins", actualResult := "pending", profitLoss := 0,
    bankrollAfter := 0, notes := none, createdAt := 12, updatedAt := 12 }

/-- An already settled (won) bet of stake 50 at odds +120 with recorded
profit 60. -/
def betSettledWin : BetHistory :=
  { id := 4, recommendationId := 3, date := "2025-04-03", game := "E vs. F",
    betType := "Moneyline", odds := "+120", confidence := 65, betAmount := 50,
    predictedResult := "E wins", actualResult := "win", profitLoss := 60,
    bankrollAfter := 560, notes := none, createdAt := 13, updatedAt := 14 }

/-- A bankroll of 500 current on 500 initial. -/
def bankroll500 : BankrollSettings :=
  { id := 1, initialAmount := 500, currentAmount := 500, createdAt := 1, updatedAt := 1 }

/-- A store holding the sample bets and the sample bankroll. -/
def sampleState : MemState :=
  { gamesData := []
    recommendationsData := []
    bankrollSettingsData := some bankroll500
    betHistoryData := [(1, betPlus120), (2, betMinus110), (3, betStake75), (4, betSettledWin)]
    gameId := 1
    recommendationId := 1
    betHistoryId := 5 }

/-- The sample store without any bankroll record. -/
def sampleStateNoBankroll : MemState :=
  { sampleState with bankrollSettingsData := none }

/-- A sample game input. -/
def insGame1 : InsertGame :=
  { homeTeam := "Yankees", awayTeam := "Red Sox", gameTime := 100,
    homeOdds := "-150", awayOdds := "+130", overUnderLine := "8.5",
    overUnderOdds := "-110", source := some "The Odds API" }

/-- A second sample game input, without a source. -/
def insGame2 : InsertGame :=
  { homeTeam := "Dodgers", awayTeam := "Giants", gameTime := 200,
    homeOdds := "+105", awayOdds := "-125", overUnderLine := "7.5",
    overUnderOdds := "-105", source := none }

/-- A third sample game input. -/
def insGame3 : InsertGame :=
  { homeTeam := "Cubs", awayTeam := "Mets", gameTime := 300,
    homeOdds := "-120", awayOdds := "+100", overUnderLine := "9",
    overUnderOdds := "-115", source := some "Uploaded Document" }

/-- A sample recommendation input carrying caller-supplied provenance. -/
def insRec1 : InsertRecommendation :=
  { game := "Yankees vs. Red Sox", betType := "Moneyline", odds := "+120",
    confidence := 72, prediction := "Yankees win",
    gameSource := some "The Odds API", betTypeSource := some "LLM",
    oddsSource := some "The Odds API", confidenceSource := some "LLM",
    predictionSource := some "LLM" }

/-- A second sample recommendation input. -/
def insRec2 : InsertRecommendation :=
  { game := "Dodgers vs. Giants", betType := "Total", odds := "-110",
    confidence := 61, prediction := "Over",
    gameSource := none, betTypeSource := none, oddsSource := none,
    confidenceSource := none, predictionSource := none }

/-- A sample bet input. -/
def insBet1 : InsertBetHistory :=
  { recommendationId := 1, date := "2025-04-01", game := "Yankees vs. Red Sox",
    betType := "Moneyline", odds := "+120", confidence := 72, betAmount := 50,
    predictedResult := "Yankees win", actualResult := none, profitLoss := none,
    bankrollAfter := 500, notes := none }

/-- A second sample bet input. -/
def insBet2 : InsertBetHistory :=
  { recommendationId := 2, date := "2025-04-02", game := "Dodgers vs. Giants",
    betType := "Total", odds := "-110", confidence := 61, betAmount := 110,
    predictedResult := "Over", actualResult := some "pending", profitLoss := some 0,
    bankrollAfter := 500, notes := some "late line move" }

/-- A stored game record. -/
def gameA : Game :=
  { id := 1, homeTeam := "Yankees", awayTeam := "Red Sox", gameTime := 100,
    homeOdds := "-150", awayOdds := "+130", overUnderLine := "8.5",
    overUnderOdds := "-110", source := "The Odds API", uploadDate := 90 }

/-- A second stored game record. -/
def gameB : Game :=
  { id := 2, homeTeam := "Dodgers", awayTeam := "Giants", gameTime := 200,
    homeOdds := "+105", awayOdds := "-125", overUnderLine := "7.5",
    overUnderOdds := "-105", source := "Manual Upload", uploadDate := 0 }

/-- A third stored game record. -/
def gameC : Game :=
  { id := 3, homeTeam := "Cubs", awayTeam := "Mets", gameTime := 300,
    homeOdds := "-120", awayOdds := "+100", overUnderLine := "9",
    overUnderOdds := "-115", source := "Uploaded Document", uploadDate := 95 }

/-- A store with three games, two bets and a bankroll, for the durability
round trip. -/
def sampleDurabilityState : MemState :=
  { gamesData := [(1, gameA), (2, gameB), (3, gameC)]
    recommendationsData := []
    bankrollSettingsData := some bankroll500
    betHistoryData := [(1, betPlus120), (2, betMinus110)]
    gameId := 4
    recommendationId := 1
    betHistoryId := 3 }

/-! ## Helper lemmas -/

theorem mapGet_mapSet_self {α : Type} (m : JsMap α) (k : Nat) (v : α) :
    mapGet (mapSet m k v) k = some v := by
  induction m with
  | nil => simp [mapGet, mapSet]
  | cons p rest ih =>
    obtain ⟨k0, v0⟩ := p
    by_cases h : k0 = k <;> simp [mapGet, mapSet, h, ih]

theorem mapGet_mapSet_ne {α : Type} (m : JsMap α) (k k' : Nat) (v : α) (h : k ≠ k') :
    mapGet (mapSet m k v) k' = mapGet m k' := by
  induction m with
  | nil => simp [mapGet, mapSet, h]
  | cons p rest ih =>
    obtain ⟨k0, v0⟩ := p
    by_cases h0 : k0 = k
    · subst h0
      simp [mapGet, mapSet, h]
    · simp [mapGet, mapSet, h0, ih]

theorem leadingDigits_of_digits (ds : List Char) (hne : ds ≠ [])
    (hd : ∀ c ∈ ds, c.isDigit) : leadingDigits ds = some (digitsVal ds) := by
  unfold leadingDigits
  rw [List.takeWhile_eq_self_iff.mpr hd]
  simp [List.isEmpty_iff, hne]

theorem parseIntChars_digits (ds : List Char) (hne : ds ≠ [])
    (hd : ∀ c ∈ ds, c.isDigit) : parseIntChars ds = some ((digitsVal ds : Int)) := by
  match ds, hne with
  | c :: rest, _ =>
    have hc : c.isDigit := hd c (by simp)
    have h1 : c ≠ '+' := by
      intro h
      rw [h] at hc
      simp at hc
    have h2 : c ≠ '-' := by
      intro h
      rw [h] at hc
      simp at hc
    simp [parseIntChars, h1, h2,
      leadingDigits_of_digits (c :: rest) (by simp) hd]

theorem parseIntChars_neg_digits (ds : List Char) (hne : ds ≠ [])
    (hd : ∀ c ∈ ds, c.isDigit) :
    parseIntChars ('-' :: ds) = some (-(digitsVal ds : Int)) := by
  simp [parseIntChars, leadingDigits_of_digits ds hne hd]

theorem profitLossChars_win_pos (ds : List Char) (amt : ℚ)
    (hne : ds ≠ []) (hd : ∀ c ∈ ds, c.isDigit) :
    profitLossChars ('+' :: ds) amt "win" = amt * ((digitsVal ds : ℚ) / 100) := by
  simp [profitLossChars, parseIntChars_digits ds hne hd]

theorem profitLossChars_win_neg (ds : List Char) (amt : ℚ)
    (hne : ds ≠ []) (hd : ∀ c ∈ ds, c.isDigit) :
    profitLossChars ('-' :: ds) amt "win" = amt * (100 / (digitsVal ds : ℚ)) := by
  have hm : ('-' : Char) ≠ '+' := by decide
  simp [profitLossChars, hm, parseIntChars_neg_digits ds hne hd]

theorem profitLossChars_loss (odds : List Char) (amt : ℚ) :
    profitLossChars odds amt "loss" = -amt := by
  simp [profitLossChars]

/-- The full effect of a successful `updateBetResult` call, as one equation. -/
theorem updateBetResult_eq (st : MemState) (now : Nat) (u : UpdateBetResult)
    (bet : BetHistory) (bk : BankrollSettings)
    (hbet : mapGet st.betHistoryData u.id = some bet)
    (hbk : st.bankrollSettingsData = some bk) :
    updateBetResult st now u =
      ({ st with
           bankrollSettingsData := some { bk with
             currentAmount := bk.currentAmount + computeProfitLoss bet.odds bet.betAmount u.actualResult,
             updatedAt := now },
           betHistoryData := mapSet st.betHistoryData u.id
             { bet with
               actualResult := u.actualResult,
               profitLoss := computeProfitLoss bet.odds bet.betAmount u.actualResult,
               bankrollAfter := bk.currentAmount + computeProfitLoss bet.odds bet.betAmount u.actualResult,
               notes := notesOr u.notes bet.notes,
               updatedAt := now } },
       .ok { bet with
               actualResult := u.actualResult,
               profitLoss := computeProfitLoss bet.odds bet.betAmount u.actualResult,
               bankrollAfter := bk.currentAmount + computeProfitLoss bet.odds bet.betAmount u.actualResult,
               notes := notesOr u.notes bet.notes,
               updatedAt := now }) := by
  simp only [updateBetResult, updateBankrollAmount, hbet, hbk]

/-! ## The claims -/

/-- C1: settling a stored bet as a win computes the profit from the
American odds string: for odds `'+'` followed by the digits of an integer
N, `profitLoss = betAmount * (N / 100)`; for odds `'-'` followed by the
digits of N, `profitLoss = betAmount * (100 / N)`.  (The witness below
instantiates the two quoted examples: stake 50 at +120 settles to exactly
60, and stake 110 at -110 settles to exactly 100.) -/
theorem C1_win_settlement_math
    (st : MemState) (now : Nat) (u : UpdateBetResult) (bet : BetHistory)
    (bk : BankrollSettings) (ds : List Char)
    (hbet : mapGet st.betHistoryData u.id = some bet)
    (hbk : st.bankrollSettingsData = some bk)
    (hwin : u.actualResult = "win")
    (hne : ds ≠ []) (hd : ∀ c ∈ ds, c.isDigit) :
    (bet.odds.data = '+' :: ds →
      ∃ st' b', updateBetResult st now u = (st', Except.ok b') ∧
        b'.profitLoss = bet.betAmount * ((digitsVal ds : ℚ) / 100) ∧
        mapGet st'.betHistoryData u.id = some b') ∧
    (bet.odds.data = '-' :: ds →
      ∃ st' b', updateBetResult st now u = (st', Except.ok b') ∧
        b'.profitLoss = bet.betAmount * (100 / (digitsVal ds : ℚ)) ∧
        mapGet st'.betHistoryData u.id = some b') := by
  rw [updateBetResult_eq st now u bet bk hbet hbk]
  constructor
  · intro hodds
    refine ⟨_, _, rfl, ?_, ?_⟩
    · simp only [computeProfitLoss, hodds, hwin]
      exact profitLossChars_win_pos ds bet.betAmount hne hd
    · exact mapGet_mapSet_self st.betHistoryData u.id _
  · intro hodds
    refine ⟨_, _, rfl, ?_, ?_⟩
    · simp only [computeProfitLoss, hodds, hwin]
      exact profitLossChars_win_neg ds bet.betAmount hne hd
    · exact mapGet_mapSet_self st.betHistoryData u.id _

/-- Witness for C1 at the spec's two quoted examples. -/
theorem C1_win_settlement_math_witness :
    (∃ st' b', updateBetResult sampleState 20 ⟨1, "win", none⟩ = (st', Except.ok b') ∧
        b'.profitLoss = 60 ∧ mapGet st'.betHistoryData 1 = some b') ∧
    (∃ st' b', updateBetResult sampleState 20 ⟨2, "win", none⟩ = (st', Except.ok b') ∧
        b'.profitLoss = 100 ∧ mapGet st'.betHistoryData 2 = some b') := by
  have h120 : digitsVal ['1', '2', '0'] = 120 := by decide
  have h110 : digitsVal ['1', '1', '0'] = 110 := by decide
  constructor
  · obtain ⟨st', b', heq, hpl, hget⟩ :=
      (C1_win_settlement_math sampleState 20 ⟨1, "win", none⟩ betPlus120 bankroll500
        ['1', '2', '0'] rfl rfl rfl (by simp) (by decide)).1 rfl
    refine ⟨st', b', heq, ?_, hget⟩
    rw [hpl, h120]
    norm_num [betPlus120]
  · obtain ⟨st', b', heq, hpl, hget⟩ :=
      (C1_win_settlement_math sampleState 20 ⟨2, "win", none⟩ betMinus110 bankroll500
        ['1', '1', '0'] rfl rfl rfl (by simp) (by decide)).2 rfl
    refine ⟨st', b', heq, ?_, hget⟩
    rw [hpl, h110]
    norm_num [betMinus110]

/-- C2: settling a stored bet as a loss sets its profitLoss to the negated
stake and lowers the bankroll by the stake; in general any settlement sets
the new bankroll currentAmount to the previous currentAmount plus the
computed profitLoss and records that balance as the bet's bankrollAfter. -/
theorem C2_loss_and_bankroll_update
    (st : MemState) (now : Nat) (u : UpdateBetResult) (bet : BetHistory)
    (bk : BankrollSettings)
    (hbet : mapGet st.betHistoryData u.id = some bet)
    (hbk : st.bankrollSettingsData = some bk) :
    (u.actualResult = "loss" →
      ∃ st' bk' b', updateBetResult st now u = (st', Except.ok b') ∧
        st'.bankrollSettingsData = some bk' ∧
        b'.profitLoss = -bet.betAmount ∧
        bk'.currentAmount = bk.currentAmount - bet.betAmount ∧
        b'.bankrollAfter = bk'.currentAmount) ∧
    (∃ st' bk' b', updateBetResult st now u = (st', Except.ok b') ∧
        st'.bankrollSettingsData = some bk' ∧
        bk'.currentAmount = bk.currentAmount + b'.profitLoss ∧
        b'.bankrollAfter = bk'.currentAmount) := by
  rw [updateBetResult_eq st now u bet bk hbet hbk]
  constructor
  · intro hloss
    refine ⟨_, _, _, rfl, rfl, ?_, ?_, rfl⟩
    · simp only [computeProfitLoss, hloss]
      exact profitLossChars_loss _ _
    · simp only [computeProfitLoss, hloss, profitLossChars_loss]
      ring
  · exact ⟨_, _, _, rfl, rfl, rfl, rfl⟩

/-- Witness for C2: the stake-75 loss example and the bankroll-addition
shape of a win settlement. -/
theorem C2_loss_and_bankroll_update_witness :
    (∃ st' bk' b', updateBetResult sampleState 20 ⟨3, "loss", none⟩ = (st', Except.ok b') ∧
        st'.bankrollSettingsData = some bk' ∧
        b'.profitLoss = -(75 : ℚ) ∧
        bk'.currentAmount = (500 : ℚ) - 75 ∧
        b'.bankrollAfter = bk'.currentAmount) ∧
    (∃ st' bk' b', updateBetResult sampleState 20 ⟨1, "win", none⟩ = (st', Except.ok b') ∧
        st'.bankrollSettingsData = some bk' ∧
        bk'.currentAmount = (500 : ℚ) + b'.profitLoss ∧
        b'.bankrollAfter = bk'.currentAmount) := by
  constructor
  · obtain ⟨st', bk', b', heq, hbk', hpl, hcur, hba⟩ :=
      (C2_loss_and_bankroll_update sampleState 20 ⟨3, "loss", none⟩ betStake75 bankroll500
        rfl rfl).1 rfl
    refine ⟨st', bk', b', heq, hbk', ?_, ?_, hba⟩
    · simpa [betStake75] using hpl
    · simpa [betStake75, bankroll500] using hcur
  · obtain ⟨st', bk', b', heq, hbk', hcur, hba⟩ :=
      (C2_loss_and_bankroll_update sampleState 20 ⟨1, "win", none⟩ betPlus120 bankroll500
        rfl rfl).2
    refine ⟨st', bk', b', heq, hbk', ?_, hba⟩
    simpa [bankroll500] using hcur

/-- C3: re-settling an already-settled bet recomputes the profit/loss from
scratch (from the bet's odds, stake and the newly declared result only)
and adds it on top of the current bankroll; the previously recorded
profitLoss is never subtracted — replacing it by an arbitrary value leaves
the outcome identical. -/
theorem C3_resettlement_additive
    (st : MemState) (now : Nat) (u : UpdateBetResult) (bet : BetHistory)
    (bk : BankrollSettings)
    (hbet : mapGet st.betHistoryData u.id = some bet)
    (hbk : st.bankrollSettingsData = some bk)
    (hsettled : bet.actualResult ≠ "pending") :
    ∃ st' bk' b', updateBetResult st now u = (st', Except.ok b') ∧
      st'.bankrollSettingsData = some bk' ∧
      b'.profitLoss = computeProfitLoss bet.odds bet.betAmount u.actualResult ∧
      bk'.currentAmount = bk.currentAmount + computeProfitLoss bet.odds bet.betAmount u.actualResult ∧
      (∀ q : ℚ,
        ∃ st2 bk2 b2,
          updateBetResult
              { st with betHistoryData := mapSet st.betHistoryData u.id { bet with profitLoss := q } }
              now u = (st2, Except.ok b2) ∧
          st2.bankrollSettingsData = some bk2 ∧
          bk2.currentAmount = bk'.currentAmount ∧
          b2.profitLoss = b'.profitLoss) := by
  rw [updateBetResult_eq st now u bet bk hbet hbk]
  refine ⟨_, _, _, rfl, rfl, rfl, rfl, ?_⟩
  intro q
  have hbet2 : mapGet
      ({ st with betHistoryData := mapSet st.betHistoryData u.id { bet with profitLoss := q } } : MemState).betHistoryData
      u.id = some { bet with profitLoss := q } :=
    mapGet_mapSet_self st.betHistoryData u.id _
  have hbk2 : ({ st with betHistoryData := mapSet st.betHistoryData u.id { bet with profitLoss := q } } : MemState).bankrollSettingsData
      = some bk := hbk
  rw [updateBetResult_eq _ now u _ bk hbet2 hbk2]
  exact ⟨_, _, _, rfl, rfl, rfl, rfl⟩

/-- Witness for C3: re-settling the already-won sample bet (recorded
profit 60) as a loss. -/
theorem C3_resettlement_additive_witness :
    ∃ st' bk' b', updateBetResult sampleState 20 ⟨4, "loss", none⟩ = (st', Except.ok b') ∧
      st'.bankrollSettingsData = some bk' ∧
      b'.profitLoss = computeProfitLoss betSettledWin.odds betSettledWin.betAmount "loss" ∧
      bk'.currentAmount =
        bankroll500.currentAmount + computeProfitLoss betSettledWin.odds betSettledWin.betAmount "loss" ∧
      (∀ q : ℚ,
        ∃ st2 bk2 b2,
          updateBetResult
              { sampleState with
                  betHistoryData := mapSet sampleState.betHistoryData 4 { betSettledWin with profitLoss := q } }
              20 ⟨4, "loss", none⟩ = (st2, Except.ok b2) ∧
          st2.bankrollSettingsData = some bk2 ∧
          bk2.currentAmount = bk'.currentAmount ∧
          b2.profitLoss = b'.profitLoss) :=
  C3_resettlement_additive sampleState 20 ⟨4, "loss", none⟩ betSettledWin bankroll500
    rfl rfl (by decide)

/-- C4: with no bankroll record, `updateBetResult` on an existing bet id
fails with the not-initialized error and the whole store — every bet and
the (absent) bankroll — is exactly as before the call. -/
theorem C4_not_initialized_guard
    (st : MemState) (now : Nat) (u : UpdateBetResult) (bet : BetHistory)
    (hbet : mapGet st.betHistoryData u.id = some bet)
    (hbk : st.bankrollSettingsData = none) :
    updateBetResult st now u = (st, Except.error StoreErr.notInitialized) := by
  simp only [updateBetResult, hbet, hbk]

/-- Witness for C4 on the sample store without a bankroll. -/
theorem C4_not_initialized_guard_witness :
    updateBetResult sampleStateNoBankroll 20 ⟨1, "win", none⟩ =
      (sampleStateNoBankroll, Except.error StoreErr.notInitialized) :=
  C4_not_initialized_guard sampleStateNoBankroll 20 ⟨1, "win", none⟩ betPlus120 rfl rfl

/-- C10: a successful `updateBetResult` changes, on the target bet, only
actualResult, profitLoss, bankrollAfter, notes and updatedAt, and on the
bankroll record only currentAmount and updatedAt; the target bet's other
ten fields, every other bet, the bankroll's id, initialAmount and
createdAt, the games and recommendations collections and all three id
counters are unchanged. -/
theorem C10_settlement_frame
    (st : MemState) (now : Nat) (u : UpdateBetResult) (bet : BetHistory)
    (bk : BankrollSettings)
    (hbet : mapGet st.betHistoryData u.id = some bet)
    (hbk : st.bankrollSettingsData = some bk) :
    ∃ st' bk' b', updateBetResult st now u = (st', Except.ok b') ∧
      st'.bankrollSettingsData = some bk' ∧
      mapGet st'.betHistoryData u.id = some b' ∧
      b'.id = bet.id ∧ b'.recommendationId = bet.recommendationId ∧
      b'.date = bet.date ∧ b'.game = bet.game ∧ b'.betType = bet.betType ∧
      b'.odds = bet.odds ∧ b'.confidence = bet.confidence ∧
      b'.betAmount = bet.betAmount ∧ b'.predictedResult = bet.predictedResult ∧
      b'.createdAt = bet.createdAt ∧
      b'.actualResult = u.actualResult ∧
      b'.profitLoss = computeProfitLoss bet.odds bet.betAmount u.actualResult ∧
      b'.bankrollAfter = bk.currentAmount + b'.profitLoss ∧
      b'.notes = notesOr u.notes bet.notes ∧
      b'.updatedAt = now ∧
      (∀ k, k ≠ u.id → mapGet st'.betHistoryData k = mapGet st.betHistoryData k) ∧
      bk'.id = bk.id ∧ bk'.initialAmount = bk.initialAmount ∧
      bk'.createdAt = bk.createdAt ∧
      bk'.currentAmount = bk.currentAmount + b'.profitLoss ∧
      bk'.updatedAt = now ∧
      st'.gamesData = st.gamesData ∧
      st'.recommendationsData = st.recommendationsData ∧
      st'.gameId = st.gameId ∧ st'.recommendationId = st.recommendationId ∧
      st'.betHistoryId = st.betHistoryId := by
  rw [updateBetResult_eq st now u bet bk hbet hbk]
  refine ⟨_, _, _, rfl, rfl, mapGet_mapSet_self st.betHistoryData u.id _,
    rfl, rfl, rfl, rfl, rfl, rfl, rfl, rfl, rfl, rfl, rfl, rfl, rfl, rfl, rfl,
    ?_, rfl, rfl, rfl, rfl, rfl, rfl, rfl, rfl, rfl, rfl⟩
  intro k hk
  exact mapGet_mapSet_ne st.betHistoryData u.id k _ (Ne.symm hk)

/-- Witness for C10 on the sample store, settling bet 1 as a win. -/
theorem C10_settlement_frame_witness :
    ∃ st' bk' b', updateBetResult sampleState 20 ⟨1, "win", none⟩ = (st', Except.ok b') ∧
      st'.bankrollSettingsData = some bk' ∧
      mapGet st'.betHistoryData 1 = some b' ∧
      b'.id = betPlus120.id ∧ b'.recommendationId = betPlus120.recommendationId ∧
      b'.date = betPlus120.date ∧ b'.game = betPlus120.game ∧ b'.betType = betPlus120.betType ∧
      b'.odds = betPlus120.odds ∧ b'.confidence = betPlus120.confidence ∧
      b'.betAmount = betPlus120.betAmount ∧ b'.predictedResult = betPlus120.predictedResult ∧
      b'.createdAt = betPlus120.createdAt ∧
      b'.actualResult = "win" ∧
      b'.profitLoss = computeProfitLoss betPlus120.odds betPlus120.betAmount "win" ∧
      b'.bankrollAfter = bankroll500.currentAmount + b'.profitLoss ∧
      b'.notes = notesOr none betPlus120.notes ∧
      b'.updatedAt = 20 ∧
      (∀ k, k ≠ 1 → mapGet st'.betHistoryData k = mapGet sampleState.betHistoryData k) ∧
      bk'.id = bankroll500.id ∧ bk'.initialAmount = bankroll500.initialAmount ∧
      bk'.createdAt = bankroll500.createdAt ∧
      bk'.currentAmount = bankroll500.currentAmount + b'.profitLoss ∧
      bk'.updatedAt = 20 ∧
      st'.gamesData = sampleState.gamesData ∧
      st'.recommendationsData = sampleState.recommendationsData ∧
      st'.gameId = sampleState.gameId ∧ st'.recommendationId = sampleState.recommendationId ∧
      st'.betHistoryId = sampleState.betHistoryId :=
  C10_settlement_frame sampleState 20 ⟨1, "win", none⟩ betPlus120 bankroll500 rfl rfl

theorem mapSet_fresh {α : Type} (m : JsMap α) (k : Nat) (v : α)
    (h : ∀ p ∈ m, p.1 ≠ k) : mapSet m k v = m ++ [(k, v)] := by
  induction m with
  | nil => simp [mapSet]
  | cons p rest ih =>
    obtain ⟨k0, v0⟩ := p
    have hk0 : k0 ≠ k := h (k0, v0) (by simp)
    simp only [mapSet, hk0, if_false, List.cons_append, List.cons.injEq, true_and]
    exact ih (fun q hq => h q (by simp [hq]))

/-- Ids of a zipped creation batch: projecting the id back out returns the
id list. -/
theorem map_id_zipWith {α β : Type} (f : Nat → α → β) (getId : β → Nat)
    (hf : ∀ i g, getId (f i g) = i) (r : List Nat) (l : List α)
    (h : r.length = l.length) :
    (List.zipWith f r l).map getId = r := by
  induction r generalizing l with
  | nil => simp
  | cons i r ih =>
    cases l with
    | nil => simp at h
    | cons g l =>
      simp only [List.length_cons, Nat.add_right_cancel_iff] at h
      simp [hf, ih l h]

/-- Unfolded effect of `createGames` on a store whose existing keys all lie
below the id counter. -/
theorem createGames_spec (l : List InsertGame) (st : MemState) (now : Nat)
    (hfresh : ∀ p ∈ st.gamesData, p.1 < st.gameId) :
    createGames st now l =
      ({ st with
           gamesData := st.gamesData ++
             List.zipWith (fun i g => (i, mkGameRec i now g)) (List.range' st.gameId l.length) l,
           gameId := st.gameId + l.length },
       List.zipWith (fun i g => mkGameRec i now g) (List.range' st.gameId l.length) l) := by
  induction l generalizing st with
  | nil => simp [createGames]
  | cons g gs ih =>
    have hstep : createGame st now g =
        ({ st with gamesData := st.gamesData ++ [(st.gameId, mkGameRec st.gameId now g)],
                   gameId := st.gameId + 1 },
         mkGameRec st.gameId now g) := by
      simp [createGame,
        mapSet_fresh st.gamesData st.gameId _ (fun p hp => Nat.ne_of_lt (hfresh p hp))]
    have hfresh1 : ∀ p ∈ st.gamesData ++ [(st.gameId, mkGameRec st.gameId now g)],
        p.1 < st.gameId + 1 := by
      intro p hp
      rcases List.mem_append.mp hp with h1 | h1
      · exact Nat.lt_succ_of_lt (hfresh p h1)
      · simp only [List.mem_singleton] at h1
        subst h1
        exact Nat.lt_succ_self _
    have ih1 := ih { st with
        gamesData := st.gamesData ++ [(st.gameId, mkGameRec st.gameId now g)],
        gameId := st.gameId + 1 } hfresh1
    simp only [createGames, hstep, ih1, List.length_cons, List.range'_succ,
      List.zipWith_cons_cons, List.append_assoc, List.singleton_append, Prod.mk.injEq,
      MemState.mk.injEq]
    exact ⟨⟨trivial, trivial, trivial, trivial, by omega, trivial, trivial⟩, trivial⟩

/-- Unfolded effect of a `createRecommendation` sequence. -/
theorem createRecommendationSeq_spec (l : List InsertRecommendation) (st : MemState) (now : Nat)
    (hfresh : ∀ p ∈ st.recommendationsData, p.1 < st.recommendationId) :
    createRecommendationSeq st now l =
      ({ st with
           recommendationsData := st.recommendationsData ++
             List.zipWith (fun i r => (i, mkRecommendationRec i now r))
               (List.range' st.recommendationId l.length) l,
           recommendationId := st.recommendationId + l.length },
       List.zipWith (fun i r => mkRecommendationRec i now r)
         (List.range' st.recommendationId l.length) l) := by
  induction l generalizing st with
  | nil => simp [createRecommendationSeq]
  | cons r rs ih =>
    have hstep : createRecommendation st now r =
        ({ st with
             recommendationsData :=
               st.recommendationsData ++ [(st.recommendationId, mkRecommendationRec st.recommendationId now r)],
             recommendationId := st.recommendationId + 1 },
         mkRecommendationRec st.recommendationId now r) := by
      simp [createRecommendation,
        mapSet_fresh st.recommendationsData st.recommendationId _
          (fun p hp => Nat.ne_of_lt (hfresh p hp))]
    have hfresh1 : ∀ p ∈ st.recommendationsData ++
        [(st.recommendationId, mkRecommendationRec st.recommendationId now r)],
        p.1 < st.recommendationId + 1 := by
      intro p hp
      rcases List.mem_append.mp hp with h1 | h1
      · exact Nat.lt_succ_of_lt (hfresh p h1)
      · simp only [List.mem_singleton] at h1
        subst h1
        exact Nat.lt_succ_self _
    have ih1 := ih { st with
        recommendationsData :=
          st.recommendationsData ++ [(st.recommendationId, mkRecommendationRec st.recommendationId now r)],
        recommendationId := st.recommendationId + 1 } hfresh1
    simp only [createRecommendationSeq, hstep, ih1, List.length_cons, List.range'_succ,
      List.zipWith_cons_cons, List.append_assoc, List.singleton_append, Prod.mk.injEq,
      MemState.mk.injEq]
    exact ⟨⟨trivial, trivial, trivial, trivial, trivial, by omega, trivial⟩, trivial⟩

/-- Unfolded effect of a `createBet` sequence. -/
theorem createBetSeq_spec (l : List InsertBetHistory) (st : MemState) (now : Nat)
    (hfresh : ∀ p ∈ st.betHistoryData, p.1 < st.betHistoryId) :
    createBetSeq st now l =
      ({ st with
           betHistoryData := st.betHistoryData ++
             List.zipWith (fun i b => (i, mkBetRec i now b)) (List.range' st.betHistoryId l.length) l,
           betHistoryId := st.betHistoryId + l.length },
       List.zipWith (fun i b => mkBetRec i now b) (List.range' st.betHistoryId l.length) l) := by
  induction l generalizing st with
  | nil => simp [createBetSeq]
  | cons b bs ih =>
    have hstep : createBet st now b =
        ({ st with betHistoryData := st.betHistoryData ++ [(st.betHistoryId, mkBetRec st.betHistoryId now b)],
                   betHistoryId := st.betHistoryId + 1 },
         mkBetRec st.betHistoryId now b) := by
      simp [createBet,
        mapSet_fresh st.betHistoryData st.betHistoryId _ (fun p hp => Nat.ne_of_lt (hfresh p hp))]
    have hfresh1 : ∀ p ∈ st.betHistoryData ++ [(st.betHistoryId, mkBetRec st.betHistoryId now b)],
        p.1 < st.betHistoryId + 1 := by
      intro p hp
      rcases List.mem_append.mp hp with h1 | h1
      · exact Nat.lt_succ_of_lt (hfresh p h1)
      · simp only [List.mem_singleton] at h1
        subst h1
        exact Nat.lt_succ_self _
    have ih1 := ih { st with
        betHistoryData := st.betHistoryData ++ [(st.betHistoryId, mkBetRec st.betHistoryId now b)],
        betHistoryId := st.betHistoryId + 1 } hfresh1
    simp only [createBetSeq, hstep, ih1, List.length_cons, List.range'_succ,
      List.zipWith_cons_cons, List.append_assoc, List.singleton_append, Prod.mk.injEq,
      MemState.mk.injEq]
    exact ⟨⟨trivial, trivial, trivial, trivial, trivial, trivial, by omega⟩, trivial⟩

/-- C5: after `replaceAllGames(list)` the store holds exactly `list.length`
games, keyed `1..list.length` in input order, and the collection equals
the freshly created records alone — no game from before the call remains. -/
theorem C5_replace_all_atomicity (st : MemState) (now : Nat) (l : List InsertGame) :
    (replaceAllGames st now l).1.gamesData =
        List.zipWith (fun i g => (i, mkGameRec i now g)) (List.range' 1 l.length) l ∧
    ((replaceAllGames st now l).1.gamesData).map Prod.fst = List.range' 1 l.length ∧
    ((replaceAllGames st now l).1.gamesData).length = l.length ∧
    (replaceAllGames st now l).2 =
        List.zipWith (fun i g => mkGameRec i now g) (List.range' 1 l.length) l := by
  have h := createGames_spec l (clearGames st) now (by simp [clearGames])
  unfold replaceAllGames
  rw [h]
  refine ⟨by simp [clearGames], ?_, ?_, by simp [clearGames]⟩
  · simp only [clearGames, List.nil_append]
    exact map_id_zipWith _ Prod.fst (fun i g => rfl) _ l (by simp)
  · simp [clearGames]

/-- C7: from a fresh generation (empty collection, id counter 1), a
sequence of N single creates on the games, the recommendations or the bets
collection produces records with ids `1..N` in creation order. -/
theorem C7_id_monotonicity (now : Nat) :
    (∀ (st : MemState) (l : List InsertGame), st.gamesData = [] → st.gameId = 1 →
      (createGames st now l).2.map Game.id = List.range' 1 l.length) ∧
    (∀ (st : MemState) (l : List InsertRecommendation),
      st.recommendationsData = [] → st.recommendationId = 1 →
      (createRecommendationSeq st now l).2.map Recommendation.id = List.range' 1 l.length) ∧
    (∀ (st : MemState) (l : List InsertBetHistory), st.betHistoryData = [] → st.betHistoryId = 1 →
      (createBetSeq st now l).2.map BetHistory.id = List.range' 1 l.length) := by
  refine ⟨?_, ?_, ?_⟩
  · intro st l hmap hctr
    rw [createGames_spec l st now (by rw [hmap]; intro p hp; simp at hp)]
    rw [hctr]
    exact map_id_zipWith _ Game.id (fun i g => rfl) _ l (by simp)
  · intro st l hmap hctr
    rw [createRecommendationSeq_spec l st now (by rw [hmap]; intro p hp; simp at hp)]
    rw [hctr]
    exact map_id_zipWith _ Recommendation.id (fun i r => rfl) _ l (by simp)
  · intro st l hmap hctr
    rw [createBetSeq_spec l st now (by rw [hmap]; intro p hp; simp at hp)]
    rw [hctr]
    exact map_id_zipWith _ BetHistory.id (fun i b => rfl) _ l (by simp)

/-- Witness for C7 on concrete batches over the fresh store. -/
theorem C7_id_monotonicity_witness :
    (createGames initialState 30 [insGame1, insGame2, insGame3]).2.map Game.id = [1, 2, 3] ∧
    (createRecommendationSeq initialState 30 [insRec1, insRec2]).2.map Recommendation.id = [1, 2] ∧
    (createBetSeq initialState 30 [insBet1, insBet2]).2.map BetHistory.id = [1, 2] := by
  obtain ⟨h1, h2, h3⟩ := C7_id_monotonicity 30
  exact ⟨h1 initialState [insGame1, insGame2, insGame3] rfl rfl,
         h2 initialState [insRec1, insRec2] rfl rfl,
         h3 initialState [insBet1, insBet2] rfl rfl⟩

/-- C8 fails on the code: `MemStorage.createRecommendation` spreads the
input first and then assigns the five provenance constants, so a
caller-supplied provenance value is overwritten, not preserved.  At the
input `insRec1` (gameSource and oddsSource supplied as "The Odds API") the
stored record carries "Manual Input" and "LLM" instead; id assignment and
the generation stamp behave as claimed. -/
theorem C8_provenance_overwritten :
    insRec1.gameSource = some "The Odds API" ∧
    insRec1.oddsSource = some "The Odds API" ∧
    (createRecommendation initialState 40 insRec1).2.id = 1 ∧
    (createRecommendation initialState 40 insRec1).2.generatedAt = 40 ∧
    (createRecommendation initialState 40 insRec1).2.gameSource = "Manual Input" ∧
    (createRecommendation initialState 40 insRec1).2.oddsSource = "LLM" ∧
    (createRecommendation initialState 40 insRec1).2.gameSource ≠ "The Odds API" ∧
    (createRecommendation initialState 40 insRec1).2.oddsSource ≠ "The Odds API" := by
  refine ⟨rfl, rfl, rfl, rfl, rfl, rfl, ?_, ?_⟩
  · intro h
    exact absurd h (by decide)
  · intro h
    exact absurd h (by decide)

/-- C9 (facade modelled from the spec, sections 4.1 and 7): `setBankroll`
overwrites the single bankroll record when the supplied amounts are
admissible, and fails with a ValidationError — leaving the store untouched
— when a negative amount is supplied. -/
theorem C9_set_bankroll_validates
    (st : MemState) (now : Nat) (initial current : ℚ) :
    (0 ≤ initial → 0 ≤ current →
      setBankroll st now initial current =
        ({ st with bankrollSettingsData := some (⟨1, initial, current, now, now⟩ : BankrollSettings) },
         Except.ok (⟨1, initial, current, now, now⟩ : BankrollSettings))) ∧
    (initial < 0 ∨ current < 0 →
      setBankroll st now initial current = (st, Except.error LedgerErr.validationError)) := by
  constructor
  · intro h1 h2
    have hno : ¬ (initial < 0 ∨ current < 0) := by
      rintro (h | h)
      · exact absurd h (not_lt.mpr h1)
      · exact absurd h (not_lt.mpr h2)
    simp [setBankroll, setBankrollSettings, hno]
  · intro h
    simp [setBankroll, h]

/-- Witness for C9: overwriting the existing sample bankroll, and the
rejection of a negative initial amount. -/
theorem C9_set_bankroll_validates_witness :
    (setBankroll sampleState 50 1000 800 =
      ({ sampleState with bankrollSettingsData := some (⟨1, 1000, 800, 50, 50⟩ : BankrollSettings) },
       Except.ok (⟨1, 1000, 800, 50, 50⟩ : BankrollSettings))) ∧
    (setBankroll sampleState 50 (-100) 200 = (sampleState, Except.error LedgerErr.validationError)) :=
  ⟨(C9_set_bankroll_validates sampleState 50 1000 800).1 (by norm_num) (by norm_num),
   (C9_set_bankroll_validates sampleState 50 (-100) 200).2 (Or.inl (by norm_num))⟩

theorem toNat_digitChar (d : Nat) (h : d < 10) : (digitChar d).toNat - 48 = d := by
  interval_cases d <;> decide

theorem foldl_reverse_ofDigits (L : List Nat) :
    (L.reverse).foldl (fun a d => a * 10 + d) 0 = Nat.ofDigits 10 L := by
  induction L with
  | nil => simp
  | cons d L ih =>
    simp only [List.reverse_cons, List.foldl_append, ih, List.foldl_cons, List.foldl_nil,
      Nat.ofDigits_cons]
    ring

theorem decodeTime_encodeTime (t : Nat) : decodeTime (encodeTime t) = t := by
  show (((Nat.digits 10 t).reverse).map digitChar).foldl (fun a c => a * 10 + (c.toNat - 48)) 0 = t
  rw [List.foldl_map]
  rw [List.foldl_ext (fun a c => a * 10 + ((digitChar c).toNat - 48)) (fun a d => a * 10 + d) 0
    (fun a d hd => by
      show a * 10 + ((digitChar d).toNat - 48) = a * 10 + d
      rw [toNat_digitChar d (Nat.digits_lt_base (by norm_num) (List.mem_reverse.mp hd))])]
  rw [foldl_reverse_ofDigits, Nat.ofDigits_digits]

theorem deserializeGame_serializeGame (g : Game) :
    deserializeGame (serializeGame g) = g := by
  cases g
  simp [serializeGame, deserializeGame, decodeTime_encodeTime]

theorem deserializeBet_serializeBet (b : BetHistory) :
    deserializeBet (serializeBet b) = b := by
  cases b
  simp [serializeBet, deserializeBet, decodeTime_encodeTime]

/-- Rebuilding a map by setting each stored pair in order reproduces it. -/
theorem foldl_mapSet_pairs {α : Type} (m : JsMap α) (acc : JsMap α)
    (hnodup : ((acc ++ m).map Prod.fst).Nodup) :
    m.foldl (fun a p => mapSet a p.1 p.2) acc = acc ++ m := by
  induction m generalizing acc with
  | nil => simp
  | cons p rest ih =>
    have hdisj : (acc.map Prod.fst).Disjoint ((p :: rest).map Prod.fst) := by
      rw [List.map_append] at hnodup
      exact (List.nodup_append.mp hnodup).2.2
    have hfreshp : ∀ q ∈ acc, q.1 ≠ p.1 := by
      intro q hq hqp
      exact hdisj (List.mem_map_of_mem Prod.fst hq) (by rw [hqp]; simp)
    have hstep : mapSet acc p.1 p.2 = acc ++ [p] := by
      have := mapSet_fresh acc p.1 p.2 hfreshp
      simpa using this
    have hnodup1 : (((acc ++ [p]) ++ rest).map Prod.fst).Nodup := by
      rw [← List.append_cons]
      exact hnodup
    calc (p :: rest).foldl (fun a q => mapSet a q.1 q.2) acc
        = rest.foldl (fun a q => mapSet a q.1 q.2) (mapSet acc p.1 p.2) := rfl
      _ = rest.foldl (fun a q => mapSet a q.1 q.2) (acc ++ [p]) := by rw [hstep]
      _ = (acc ++ [p]) ++ rest := ih (acc ++ [p]) hnodup1
      _ = acc ++ p :: rest := by rw [← List.append_cons]

theorem loadGames_saveGames (m : JsMap Game) (h : isMapLike Game.id m) :
    loadGames (saveGames m) = m := by
  obtain ⟨hnodup, hkeys⟩ := h
  unfold loadGames saveGames
  rw [List.foldl_map]
  rw [List.foldl_ext _ (fun acc p => mapSet acc p.1 p.2) []
    (fun acc p hp => by rw [deserializeGame_serializeGame, hkeys p hp])]
  simpa using foldl_mapSet_pairs m [] (by simpa using hnodup)

theorem loadBets_saveBets (m : JsMap BetHistory) (h : isMapLike BetHistory.id m) :
    loadBets (saveBets m) = m := by
  obtain ⟨hnodup, hkeys⟩ := h
  unfold loadBets saveBets
  rw [List.foldl_map]
  rw [List.foldl_ext _ (fun acc p => mapSet acc p.1 p.2) []
    (fun acc p hp => by rw [deserializeBet_serializeBet, hkeys p hp])]
  simpa using foldl_mapSet_pairs m [] (by simpa using hnodup)

theorem loadBankroll_saveBankroll (bk : Option BankrollSettings) :
    loadBankroll (saveBankroll bk) = bk := by
  cases bk with
  | none => rfl
  | some b =>
    cases b
    simp [saveBankroll, loadBankroll, decodeTime_encodeTime]

/-- C6: serializing the games, bets and bankroll collections to their files
and reloading them, as at process restart, reproduces the pre-restart
collections record for record; the textual timestamps are reconstructed as
time values on reload. -/
theorem C6_round_trip_durability (st : MemState)
    (hg : isMapLike Game.id st.gamesData)
    (hb : isMapLike BetHistory.id st.betHistoryData) :
    loadGames (saveGames st.gamesData) = st.gamesData ∧
    loadBets (saveBets st.betHistoryData) = st.betHistoryData ∧
    loadBankroll (saveBankroll st.bankrollSettingsData) = st.bankrollSettingsData ∧
    (∀ t : Nat, decodeTime (encodeTime t) = t) :=
  ⟨loadGames_saveGames _ hg, loadBets_saveBets _ hb, loadBankroll_saveBankroll _,
   decodeTime_encodeTime⟩

/-- Witness for C6 on a store with three games, two bets and a bankroll. -/
theorem C6_round_trip_durability_witness :
    loadGames (saveGames sampleDurabilityState.gamesData) = sampleDurabilityState.gamesData ∧
    loadBets (saveBets sampleDurabilityState.betHistoryData) = sampleDurabilityState.betHistoryData ∧
    loadBankroll (saveBankroll sampleDurabilityState.bankrollSettingsData) =
      sampleDurabilityState.bankrollSettingsData ∧
    (∀ t : Nat, decodeTime (encodeTime t) = t) :=
  C6_round_trip_durability sampleDurabilityState ⟨by decide, by decide⟩ ⟨by decide, by decide⟩

end BetTracker
